import Mathlib

/-!
Verification of the Bitbucket Cloud pull-request client
(`pkg/bbcloud/pullrequests.go`).

The five public operations are embedded as pure functions.  Each Go
method validates its inputs and then builds an HTTP request (method,
path, JSON body) which the transport executes; the transport itself is
outside this package, so the embedding returns the built `Request` (or
the validation error) and, for `ListPullRequests`, runs the page walk
against an oracle `server : Nat -> pullRequestListPage` giving the page
returned by the k-th request, with an explicit fuel so that a
non-terminating walk is representable (the walk returns `none` when the
fuel is exhausted before the loop exits).  URL resolution of the `next`
reference (`url.Parse` / `RequestURI`) is abstracted by indexing the
requests in sequence.  Go `int` is modelled as `Int`; Go maps with
string keys are modelled as association lists built in source order.
-/

/-- Go `unicode.IsSpace`: the White_Space code points. -/
def goIsSpace (c : Char) : Bool :=
  decide (c.toNat = 9 ∨ c.toNat = 10 ∨ c.toNat = 11 ∨ c.toNat = 12 ∨ c.toNat = 13 ∨
    c.toNat = 32 ∨ c.toNat = 0x85 ∨ c.toNat = 0xA0 ∨ c.toNat = 0x1680 ∨
    (0x2000 ≤ c.toNat ∧ c.toNat ≤ 0x200A) ∨ c.toNat = 0x2028 ∨ c.toNat = 0x2029 ∨
    c.toNat = 0x202F ∨ c.toNat = 0x205F ∨ c.toNat = 0x3000)

/-- Go `strings.TrimSpace`: drop leading and trailing white space. -/
def trimSpace (s : String) : String :=
  String.mk (((s.data.dropWhile goIsSpace).reverse.dropWhile goIsSpace).reverse)

/-- UTF-8 encoding of one code point, as byte values. -/
def utf8Encode (c : Char) : List Nat :=
  let n := c.toNat
  if n < 0x80 then [n]
  else if n < 0x800 then [0xC0 + n / 0x40, 0x80 + n % 0x40]
  else if n < 0x10000 then [0xE0 + n / 0x1000, 0x80 + n / 0x40 % 0x40, 0x80 + n % 0x40]
  else [0xF0 + n / 0x40000, 0x80 + n / 0x1000 % 0x40, 0x80 + n / 0x40 % 0x40, 0x80 + n % 0x40]

/-- The UTF-8 bytes of a string, as byte values. -/
def stringBytes (s : String) : List Nat :=
  s.data.foldr (fun c r => utf8Encode c ++ r) []

/-- Uppercase hexadecimal digit, as used by Go's percent-escaping. -/
def hexUpperDigit (n : Nat) : Char :=
  if n < 10 then Char.ofNat (48 + n) else Char.ofNat (55 + n)

/-- Percent escape "%XY" of one byte. -/
def escapeByte (b : Nat) : List Char :=
  ['%', hexUpperDigit (b / 16), hexUpperDigit (b % 16)]

/-- ASCII letter or digit, on byte values. -/
def isAlphaNumByte (b : Nat) : Bool :=
  decide ((48 ≤ b ∧ b ≤ 57) ∨ (65 ≤ b ∧ b ≤ 90) ∨ (97 ≤ b ∧ b ≤ 122))

/-- Go `url.shouldEscape` in `encodePathSegment` mode: alphanumerics and
`-._~` stay; of the reserved set only `/;,?` are escaped; every other
byte is escaped. -/
def shouldEscapePathSegment (b : Nat) : Bool :=
  if isAlphaNumByte b then false
  else if b = 45 ∨ b = 95 ∨ b = 46 ∨ b = 126 then false
  else if b = 36 ∨ b = 38 ∨ b = 43 ∨ b = 44 ∨ b = 47 ∨ b = 58 ∨ b = 59 ∨
          b = 61 ∨ b = 63 ∨ b = 64 then
    decide (b = 47 ∨ b = 59 ∨ b = 44 ∨ b = 63)
  else true

/-- Go `url.PathEscape`. -/
def pathEscape (s : String) : String :=
  String.mk ((stringBytes s).foldr
    (fun b r => (if shouldEscapePathSegment b then escapeByte b else [Char.ofNat b]) ++ r) [])

/-- Go `url.shouldEscape` in `encodeQueryComponent` mode: only
alphanumerics and `-._~` stay. -/
def shouldEscapeQueryComponent (b : Nat) : Bool :=
  if isAlphaNumByte b then false
  else if b = 45 ∨ b = 95 ∨ b = 46 ∨ b = 126 then false
  else true

/-- Go `url.QueryEscape`: space becomes `+`, other escaped bytes become
"%XY". -/
def queryEscape (s : String) : String :=
  String.mk ((stringBytes s).foldr
    (fun b r =>
      (if b = 32 then [Char.ofNat 43]
       else if shouldEscapeQueryComponent b then escapeByte b
       else [Char.ofNat b]) ++ r) [])

/-- Go `strings.EqualFold`, restricted to ASCII folding (the client only
compares against the ASCII literal "all"). -/
def equalFold (a b : String) : Bool :=
  decide (a.data.map Char.toLower = b.data.map Char.toLower)

/-- Go `strings.ToUpper`, restricted to ASCII mapping. -/
def toUpperStr (s : String) : String :=
  String.mk (s.data.map Char.toUpper)

/-- A JSON value, the target of Go's `map[string]any` request bodies.
Objects are association lists of fields in construction order. -/
inductive Json where
  | str (s : String)
  | num (n : Int)
  | bool (b : Bool)
  | obj (fields : List (String × Json))
  | arr (elems : List Json)

/-- An HTTP request as handed to the transport: method, relative path,
optional JSON body. -/
structure Request where
  method : String
  path : String
  body : Option Json

/-- Author block of a pull request. -/
structure PRAuthor where
  DisplayName : String
  Username : String
deriving DecidableEq

/-- A branch reference. -/
structure PRBranch where
  Name : String
deriving DecidableEq

/-- A commit reference. -/
structure PRCommit where
  Hash : String
deriving DecidableEq

/-- A repository reference. -/
structure PRRepoRef where
  Slug : String
deriving DecidableEq

/-- Source half of a pull request. -/
structure PRSource where
  Branch : PRBranch
  Commit : PRCommit
  Repository : PRRepoRef
deriving DecidableEq

/-- Destination half of a pull request. -/
structure PRDestination where
  Branch : PRBranch
  Repository : PRRepoRef
deriving DecidableEq

/-- A hyperlink. -/
structure PRLink where
  Href : String
deriving DecidableEq

/-- Links block of a pull request. -/
structure PRLinks where
  HTML : PRLink
deriving DecidableEq

/-- Summary block of a pull request. -/
structure PRSummary where
  Raw : String
deriving DecidableEq

/-- The structure `PullRequest` models a Bitbucket Cloud pull request. -/
structure PullRequest where
  ID : Int
  Title : String
  State : String
  Author : PRAuthor
  Source : PRSource
  Destination : PRDestination
  Links : PRLinks
  Summary : PRSummary
deriving DecidableEq

/-- The options `PullRequestListOptions` configure PR listings. -/
structure PullRequestListOptions where
  State : String
  Limit : Int
  Mine : String

/-- One page of a pull-request listing response. -/
structure pullRequestListPage where
  Values : List PullRequest
  Next : String

/-- Page size used by `ListPullRequests` (lines 66-69): `opts.Limit`
unless it is out of (0,100], in which case 20. -/
def listPageLen (limit : Int) : Int :=
  if limit ≤ 0 ∨ 100 < limit then 20 else limit

/-- Query parameters built by `ListPullRequests` (lines 71-78):
`pagelen` always; `state` when the trimmed state is neither empty nor
case-insensitively "all"; `q` with an author filter when `Mine` is set. -/
def listParams (opts : PullRequestListOptions) : List String :=
  let params := ["pagelen=" ++ toString (listPageLen opts.Limit)]
  let state := trimSpace opts.State
  let params :=
    if state ≠ "" ∧ equalFold state "all" = false then
      params ++ ["state=" ++ queryEscape (toUpperStr state)]
    else params
  if opts.Mine ≠ "" then
    params ++ ["q=" ++ queryEscape ("author.username=" ++ "\"" ++ opts.Mine ++ "\"")]
  else params

/-- The page-walk loop of `ListPullRequests` (lines 87-113).  `server k`
is the page decoded from the k-th request; `k` counts requests issued so
far.  Each iteration appends the page's values, truncates and stops once
a positive limit is met, stops when the `next` reference is empty, and
otherwise follows `next` to the following request.  Returns the
accumulated items and the number of requests issued, or `none` when
`fuel` iterations did not reach an exit. -/
def listWalk (server : Nat → pullRequestListPage) (limit : Int) :
    Nat → Nat → List PullRequest → Option (List PullRequest × Nat)
  | 0, _, _ => none
  | fuel + 1, k, prs =>
    let page := server k
    let prs2 := prs ++ page.Values
    if 0 < limit ∧ limit ≤ (prs2.length : Int) then some (prs2.take limit.toNat, k + 1)
    else if page.Next = "" then some (prs2, k + 1)
    else listWalk server limit fuel (k + 1) prs2

/-- The operation `ListPullRequests` lists pull requests for a repository
(lines 61-116).  On success returns the initial request path together with the
outcome of the page walk. -/
def ListPullRequests (server : Nat → pullRequestListPage) (fuel : Nat)
    (workspace repoSlug : String) (opts : PullRequestListOptions) :
    Except String (String × Option (List PullRequest × Nat)) :=
  if workspace = "" ∨ repoSlug = "" then
    .error "workspace and repository slug are required"
  else
    let path := "/repositories/" ++ pathEscape workspace ++ "/" ++ pathEscape repoSlug ++
      "/pullrequests?" ++ String.intercalate "&" (listParams opts)
    .ok (path, listWalk server opts.Limit fuel 0 [])

/-- The operation `GetPullRequest` fetches a pull request by ID (lines
119-139); the
embedding stops at the built request, whose response is returned as-is. -/
def GetPullRequest (workspace repoSlug : String) (id : Int) : Except String Request :=
  if workspace = "" ∨ repoSlug = "" then
    .error "workspace and repository slug are required"
  else
    .ok { method := "GET"
          path := "/repositories/" ++ pathEscape workspace ++ "/" ++ pathEscape repoSlug ++
            "/pullrequests/" ++ toString id
          body := none }

/-- The input `CreatePullRequestInput` configures PR creation. -/
structure CreatePullRequestInput where
  Title : String
  Description : String
  Source : String
  Destination : String
  CloseSource : Bool
  Reviewers : List String
deriving DecidableEq

/-- The request body assembled by `CreatePullRequest` (lines 163-182):
`title`, `close_source_branch`, nested source/destination branch names,
`description` only when non-empty, `reviewers` only when non-empty. -/
def createBody (input : CreatePullRequestInput) : List (String × Json) :=
  let body := [("title", Json.str input.Title),
    ("close_source_branch", Json.bool input.CloseSource),
    ("source", Json.obj [("branch", Json.obj [("name", Json.str input.Source)])]),
    ("destination", Json.obj [("branch", Json.obj [("name", Json.str input.Destination)])])]
  let body :=
    if input.Description ≠ "" then body ++ [("description", Json.str input.Description)]
    else body
  if input.Reviewers.length > 0 then
    body ++ [("reviewers",
      Json.arr (input.Reviewers.map fun r => Json.obj [("username", Json.str r)]))]
  else body

/-- The operation `CreatePullRequest` creates a new pull request (lines
152-199). -/
def CreatePullRequest (workspace repoSlug : String) (input : CreatePullRequestInput) :
    Except String Request :=
  if workspace = "" ∨ repoSlug = "" then
    .error "workspace and repository slug are required"
  else if trimSpace input.Title = "" then
    .error "title is required"
  else if trimSpace input.Source = "" ∨ trimSpace input.Destination = "" then
    .error "source and destination branches are required"
  else
    .ok { method := "POST"
          path := "/repositories/" ++ pathEscape workspace ++ "/" ++ pathEscape repoSlug ++
            "/pullrequests"
          body := some (Json.obj (createBody input)) }

/-- The input `UpdatePullRequestInput` configures PR updates; pointer fields are
`Option`s distinguishing "not set" from "set to empty string". -/
structure UpdatePullRequestInput where
  Title : Option String
  Description : Option String

/-- The sparse body assembled by `UpdatePullRequest` (lines 214-220):
one entry per explicitly present field. -/
def updateBody (input : UpdatePullRequestInput) : List (String × Json) :=
  (match input.Title with
   | some t => [("title", Json.str t)]
   | none => []) ++
  (match input.Description with
   | some d => [("description", Json.str d)]
   | none => [])

/-- Request path used by `UpdatePullRequest` (lines 226-230). -/
def updatePath (workspace repoSlug : String) (id : Int) : String :=
  "/repositories/" ++ pathEscape workspace ++ "/" ++ pathEscape repoSlug ++
    "/pullrequests/" ++ toString id

/-- The operation `UpdatePullRequest` updates an existing pull request's title and/or
description (lines 209-242); the emptiness check runs after the body is
assembled. -/
def UpdatePullRequest (workspace repoSlug : String) (id : Int)
    (input : UpdatePullRequestInput) : Except String Request :=
  if workspace = "" ∨ repoSlug = "" then
    .error "workspace and repository slug are required"
  else
    let body := updateBody input
    if body.length = 0 then
      .error "at least one field (title or description) must be provided"
    else
      .ok { method := "PUT", path := updatePath workspace repoSlug id
            body := some (Json.obj body) }

/-- The options `CommentPullRequestOptions` configure PR comment creation. -/
structure CommentPullRequestOptions where
  Text : String
  FilePath : String
  Line : Int
  LineFrom : Int

/-- Request path used by `CommentPullRequest` (lines 311-315). -/
def commentPath (workspace repoSlug : String) (id : Int) : String :=
  "/repositories/" ++ pathEscape workspace ++ "/" ++ pathEscape repoSlug ++
    "/pullrequests/" ++ toString id ++ "/comments"

/-- The operation `CommentPullRequest` creates a comment on a pull request (lines
275-327): text must be non-blank; with a file path the target line must
be positive and, when a positive `LineFrom` is given, must not be
exceeded by it; the payload carries `content.raw` and, for inline
comments, an `inline` object with `path`, `to` and optionally `from`. -/
def CommentPullRequest (workspace repoSlug : String) (id : Int)
    (opts : CommentPullRequestOptions) : Except String Request :=
  if workspace = "" ∨ repoSlug = "" then
    .error "workspace and repository slug are required"
  else if trimSpace opts.Text = "" then
    .error "comment text is required"
  else
    let payload : List (String × Json) := [("content", Json.obj [("raw", Json.str opts.Text)])]
    if opts.FilePath ≠ "" then
      if opts.Line ≤ 0 then
        .error "line number must be positive when file path is specified"
      else
        let inline : List (String × Json) :=
          [("path", Json.str opts.FilePath), ("to", Json.num opts.Line)]
        if 0 < opts.LineFrom then
          if opts.Line < opts.LineFrom then
            .error ("line range start (" ++ toString opts.LineFrom ++
              ") must be less than or equal to end (" ++ toString opts.Line ++ ")")
          else
            .ok { method := "POST", path := commentPath workspace repoSlug id
                  body := some (Json.obj (payload ++
                    [("inline", Json.obj (inline ++ [("from", Json.num opts.LineFrom)]))])) }
        else
          .ok { method := "POST", path := commentPath workspace repoSlug id
                body := some (Json.obj (payload ++ [("inline", Json.obj inline)])) }
    else
      .ok { method := "POST", path := commentPath workspace repoSlug id
            body := some (Json.obj payload) }

/-- Field lookup in a JSON object body, mirroring map indexing. -/
def getField : List (String × Json) → String → Option Json
  | [], _ => none
  | (k, v) :: rest, key => if k = key then some v else getField rest key

/-- Decode one reviewer reference of the wire form back to a username. -/
def decodeReviewer : Json → Option String
  | .obj fields =>
    match getField fields "username" with
    | some (.str u) => some u
    | _ => none
  | _ => none

/-- Decode a list of reviewer references. -/
def decodeReviewers : List Json → Option (List String)
  | [] => some []
  | j :: rest =>
    match decodeReviewer j, decodeReviewers rest with
    | some u, some us => some (u :: us)
    | _, _ => none

/-- Decode a create-request body back into a `CreatePullRequestInput`,
reading the wire field names `title`, `close_source_branch`,
`source.branch.name`, `destination.branch.name`, optional `description`
(default empty) and optional `reviewers` (default empty list). -/
def decodeCreateBody (j : Json) : Option CreatePullRequestInput :=
  match j with
  | .obj fields =>
    match getField fields "title", getField fields "close_source_branch",
        getField fields "source", getField fields "destination" with
    | some (.str title), some (.bool cs), some (.obj src), some (.obj dst) =>
      match getField src "branch", getField dst "branch" with
      | some (.obj sb), some (.obj db) =>
        match getField sb "name", getField db "name" with
        | some (.str sname), some (.str dname) =>
          let desc :=
            match getField fields "description" with
            | some (.str d) => d
            | _ => ""
          let revs : Option (List String) :=
            match getField fields "reviewers" with
            | none => some []
            | some (.arr l) => decodeReviewers l
            | some _ => none
          match revs with
          | some rs =>
            some { Title := title, Description := desc, Source := sname,
                   Destination := dname, CloseSource := cs, Reviewers := rs }
          | none => none
        | _, _ => none
      | _, _ => none
    | _, _, _, _ => none
  | _ => none

/-- Values of the pages `j, j+1, ..., j+c` concatenated in server order. -/
def chainValues (server : Nat → pullRequestListPage) : Nat → Nat → List PullRequest
  | j, 0 => (server j).Values
  | j, c + 1 => (server j).Values ++ chainValues server (j + 1) c

/-- The server's `next` chain from request 0 ends exactly at request `k`:
page `k` carries an empty `next` and every earlier page a non-empty one. -/
def chainClosed (server : Nat → pullRequestListPage) (k : Nat) : Prop :=
  (server k).Next = "" ∧ ∀ i, i < k → (server i).Next ≠ ""

lemma not_or_of_ne {ws slug : String} (hws : ws ≠ "") (hs : slug ≠ "") :
    ¬(ws = "" ∨ slug = "") :=
  fun h => h.elim hws hs

/-- Claim C1: `UpdatePullRequest` builds a payload with exactly the
explicitly present fields; the empty-payload error occurs iff both
fields are absent, and a present-but-empty string counts as provided. -/
theorem updatePullRequest_field_presence (ws slug : String) (id : Int)
    (input : UpdatePullRequestInput) (hws : ws ≠ "") (hs : slug ≠ "") :
    (UpdatePullRequest ws slug id input =
        .error "at least one field (title or description) must be provided" ↔
      input.Title = none ∧ input.Description = none) ∧
    (∀ t, input.Title = some t → input.Description = none →
      UpdatePullRequest ws slug id input =
        .ok { method := "PUT", path := updatePath ws slug id,
              body := some (Json.obj [("title", Json.str t)]) }) ∧
    (∀ d, input.Title = none → input.Description = some d →
      UpdatePullRequest ws slug id input =
        .ok { method := "PUT", path := updatePath ws slug id,
              body := some (Json.obj [("description", Json.str d)]) }) ∧
    (∀ t d, input.Title = some t → input.Description = some d →
      UpdatePullRequest ws slug id input =
        .ok { method := "PUT", path := updatePath ws slug id,
              body := some (Json.obj [("title", Json.str t),
                ("description", Json.str d)]) }) := by
  have hne := not_or_of_ne hws hs
  obtain ⟨ot, od⟩ := input
  cases ot <;> cases od <;>
    simp [UpdatePullRequest, updateBody, hne]

theorem updatePullRequest_field_presence_witness :
    UpdatePullRequest "acme" "widgets" 7 { Title := some "", Description := none } =
      .ok { method := "PUT", path := updatePath "acme" "widgets" 7,
            body := some (Json.obj [("title", Json.str "")]) } :=
  (updatePullRequest_field_presence "acme" "widgets" 7
    { Title := some "", Description := none } (by decide) (by decide)).2.1 "" rfl rfl

/-- Claim C5: with an empty workspace or an empty repository slug, each
of the five operations fails with "workspace and repository slug are
required" before any request is built. -/
theorem operations_require_workspace_and_slug (ws slug : String)
    (h : ws = "" ∨ slug = "") :
    (∀ server fuel opts, ListPullRequests server fuel ws slug opts =
      .error "workspace and repository slug are required") ∧
    (∀ id, GetPullRequest ws slug id =
      .error "workspace and repository slug are required") ∧
    (∀ input, CreatePullRequest ws slug input =
      .error "workspace and repository slug are required") ∧
    (∀ id input, UpdatePullRequest ws slug id input =
      .error "workspace and repository slug are required") ∧
    (∀ id opts, CommentPullRequest ws slug id opts =
      .error "workspace and repository slug are required") := by
  refine ⟨?_, ?_, ?_, ?_, ?_⟩ <;> intros <;>
    simp only [ListPullRequests, GetPullRequest, CreatePullRequest,
      UpdatePullRequest, CommentPullRequest, if_pos h]

theorem operations_require_workspace_and_slug_witness :
    GetPullRequest "" "widgets" 3 =
      .error "workspace and repository slug are required" :=
  (operations_require_workspace_and_slug "" "widgets" (Or.inl rfl)).2.1 3

/-- Claim C10: with an empty `FilePath`, `Line` and `LineFrom` are
ignored entirely: no geometry validation fires and the payload has no
`inline` key, for every value of the two line fields. -/
theorem commentPullRequest_ignores_lines_without_path (ws slug : String) (id : Int)
    (text : String) (line lineFrom : Int) (hws : ws ≠ "") (hs : slug ≠ "")
    (htext : trimSpace text ≠ "") :
    CommentPullRequest ws slug id
        { Text := text, FilePath := "", Line := line, LineFrom := lineFrom } =
      .ok { method := "POST", path := commentPath ws slug id,
            body := some (Json.obj [("content", Json.obj [("raw", Json.str text)])]) } := by
  have hne := not_or_of_ne hws hs
  simp [CommentPullRequest, hne, htext]

theorem commentPullRequest_ignores_lines_without_path_witness :
    CommentPullRequest "acme" "widgets" (-5)
        { Text := "ok", FilePath := "", Line := -3, LineFrom := 99 } =
      .ok { method := "POST", path := commentPath "acme" "widgets" (-5),
            body := some (Json.obj [("content", Json.obj [("raw", Json.str "ok")])]) } :=
  commentPullRequest_ignores_lines_without_path "acme" "widgets" (-5) "ok" (-3) 99
    (by decide) (by decide) (by decide)

/-- Claim C3: the three validation failures of `CommentPullRequest` and
their exact messages: blank text; non-positive line with a file path;
range start exceeding the end, with both values interpolated. -/
theorem commentPullRequest_validation_errors (ws slug : String) (id : Int)
    (opts : CommentPullRequestOptions) (hws : ws ≠ "") (hs : slug ≠ "") :
    (trimSpace opts.Text = "" →
      CommentPullRequest ws slug id opts = .error "comment text is required") ∧
    (trimSpace opts.Text ≠ "" → opts.FilePath ≠ "" → opts.Line ≤ 0 →
      CommentPullRequest ws slug id opts =
        .error "line number must be positive when file path is specified") ∧
    (trimSpace opts.Text ≠ "" → opts.FilePath ≠ "" → 0 < opts.Line →
      0 < opts.LineFrom → opts.Line < opts.LineFrom →
      CommentPullRequest ws slug id opts =
        .error ("line range start (" ++ toString opts.LineFrom ++
          ") must be less than or equal to end (" ++ toString opts.Line ++ ")")) := by
  have hne := not_or_of_ne hws hs
  refine ⟨?_, ?_, ?_⟩
  · intro ht
    simp [CommentPullRequest, hne, ht]
  · intro ht hf hl
    simp [CommentPullRequest, hne, ht, hf, hl]
  · intro ht hf hl hlf hrange
    have hl2 : ¬opts.Line ≤ 0 := by omega
    simp [CommentPullRequest, hne, ht, hf, hl2, hlf, hrange]

theorem commentPullRequest_validation_errors_witness :
    CommentPullRequest "acme" "widgets" 1
        { Text := "hi", FilePath := "f.go", Line := 10, LineFrom := 20 } =
      .error "line range start (20) must be less than or equal to end (10)" := by
  have h := (commentPullRequest_validation_errors "acme" "widgets" 1
    { Text := "hi", FilePath := "f.go", Line := 10, LineFrom := 20 }
    (by decide) (by decide)).2.2 (by decide) (by decide) (by decide) (by decide) (by decide)
  exact h.trans (congrArg Except.error (by decide))

/-- Claim C4: the comment payload always carries `content.raw` equal to
the text; it has an `inline` object exactly when `FilePath` is
non-empty, with `path` and `to`, and a `from` entry exactly when
`LineFrom` is positive. -/
theorem commentPullRequest_payload (ws slug : String) (id : Int)
    (opts : CommentPullRequestOptions) (hws : ws ≠ "") (hs : slug ≠ "")
    (htext : trimSpace opts.Text ≠ "") :
    (opts.FilePath = "" →
      CommentPullRequest ws slug id opts =
        .ok { method := "POST", path := commentPath ws slug id,
              body := some (Json.obj
                [("content", Json.obj [("raw", Json.str opts.Text)])]) }) ∧
    (opts.FilePath ≠ "" → 0 < opts.Line → opts.LineFrom ≤ 0 →
      CommentPullRequest ws slug id opts =
        .ok { method := "POST", path := commentPath ws slug id,
              body := some (Json.obj
                [("content", Json.obj [("raw", Json.str opts.Text)]),
                 ("inline", Json.obj [("path", Json.str opts.FilePath),
                   ("to", Json.num opts.Line)])]) }) ∧
    (opts.FilePath ≠ "" → 0 < opts.Line → 0 < opts.LineFrom →
      opts.LineFrom ≤ opts.Line →
      CommentPullRequest ws slug id opts =
        .ok { method := "POST", path := commentPath ws slug id,
              body := some (Json.obj
                [("content", Json.obj [("raw", Json.str opts.Text)]),
                 ("inline", Json.obj [("path", Json.str opts.FilePath),
                   ("to", Json.num opts.Line),
                   ("from", Json.num opts.LineFrom)])]) }) := by
  have hne := not_or_of_ne hws hs
  refine ⟨?_, ?_, ?_⟩
  · intro hf
    simp [CommentPullRequest, hne, htext, hf]
  · intro hf hl hlf
    have hl2 : ¬opts.Line ≤ 0 := by omega
    have hlf2 : ¬(0 : Int) < opts.LineFrom := by omega
    simp [CommentPullRequest, hne, htext, hf, hl2, hlf2]
  · intro hf hl hlf hle
    have hl2 : ¬opts.Line ≤ 0 := by omega
    have hle2 : ¬opts.Line < opts.LineFrom := by omega
    simp [CommentPullRequest, hne, htext, hf, hl2, hlf, hle2]

theorem commentPullRequest_payload_witness :
    CommentPullRequest "acme" "widgets" 4
        { Text := "Fix", FilePath := "src/helper.go", Line := 20, LineFrom := 10 } =
      .ok { method := "POST", path := commentPath "acme" "widgets" 4,
            body := some (Json.obj
              [("content", Json.obj [("raw", Json.str "Fix")]),
               ("inline", Json.obj [("path", Json.str "src/helper.go"),
                 ("to", Json.num 20), ("from", Json.num 10)])]) } :=
  (commentPullRequest_payload "acme" "widgets" 4
    { Text := "Fix", FilePath := "src/helper.go", Line := 20, LineFrom := 10 }
    (by decide) (by decide) (by decide)).2.2 (by decide) (by decide) (by decide) (by decide)

lemma decodeReviewers_map (l : List String) :
    decodeReviewers (l.map fun r => Json.obj [("username", Json.str r)]) = some l := by
  induction l with
  | nil => rfl
  | cons x xs ih => simp [decodeReviewers, decodeReviewer, getField, ih]

lemma decode_createBody (input : CreatePullRequestInput) :
    decodeCreateBody (Json.obj (createBody input)) = some input := by
  obtain ⟨t, d, src, dst, cs, revs⟩ := input
  by_cases hd : d = "" <;> by_cases hr : revs.length > 0 <;>
    simp_all [createBody, decodeCreateBody, getField, decodeReviewers_map,
      List.length_eq_zero]

/-- Claim C8: any `CreatePullRequestInput` passing validation produces a
request body whose decoded form passes the same validation again. -/
theorem createPullRequest_roundtrip (ws slug : String)
    (input : CreatePullRequestInput) (hws : ws ≠ "") (hs : slug ≠ "")
    (ht : trimSpace input.Title ≠ "") (hsrc : trimSpace input.Source ≠ "")
    (hdst : trimSpace input.Destination ≠ "") :
    ∃ req decoded, CreatePullRequest ws slug input = .ok req ∧
      req.body = some (Json.obj (createBody input)) ∧
      decodeCreateBody (Json.obj (createBody input)) = some decoded ∧
      trimSpace decoded.Title ≠ "" ∧ trimSpace decoded.Source ≠ "" ∧
      trimSpace decoded.Destination ≠ "" := by
  have hne := not_or_of_ne hws hs
  have hbr : ¬(trimSpace input.Source = "" ∨ trimSpace input.Destination = "") :=
    fun h => h.elim hsrc hdst
  refine ⟨⟨"POST", "/repositories/" ++ pathEscape ws ++ "/" ++ pathEscape slug ++
    "/pullrequests", some (Json.obj (createBody input))⟩, input, ?_, rfl,
    decode_createBody input, ht, hsrc, hdst⟩
  simp only [CreatePullRequest]
  rw [if_neg hne, if_neg ht, if_neg hbr]

theorem createPullRequest_roundtrip_witness :
    ∃ req decoded,
      CreatePullRequest "acme" "widgets"
        { Title := "T", Description := "", Source := "b1", Destination := "b2",
          CloseSource := false, Reviewers := [] } = .ok req ∧
      req.body = some (Json.obj (createBody
        { Title := "T", Description := "", Source := "b1", Destination := "b2",
          CloseSource := false, Reviewers := [] })) ∧
      decodeCreateBody (Json.obj (createBody
        { Title := "T", Description := "", Source := "b1", Destination := "b2",
          CloseSource := false, Reviewers := [] })) = some decoded ∧
      trimSpace decoded.Title ≠ "" ∧ trimSpace decoded.Source ≠ "" ∧
      trimSpace decoded.Destination ≠ "" :=
  createPullRequest_roundtrip "acme" "widgets"
    { Title := "T", Description := "", Source := "b1", Destination := "b2",
      CloseSource := false, Reviewers := [] }
    (by decide) (by decide) (by decide) (by decide) (by decide)

/-- Claim C9: the pull-request id is never validated: with otherwise
valid inputs, `GetPullRequest`, `UpdatePullRequest` and
`CommentPullRequest` succeed for every integer id (zero and negatives
included), the id being written as-is into the request path; the only
validation errors these operations can produce are the listed ones. -/
theorem pull_request_id_never_validated :
    (∀ ws slug : String, ∀ id : Int, ws ≠ "" → slug ≠ "" →
      GetPullRequest ws slug id = .ok ⟨"GET",
        "/repositories/" ++ pathEscape ws ++ "/" ++ pathEscape slug ++
          "/pullrequests/" ++ toString id, none⟩) ∧
    (∀ ws slug : String, ∀ id : Int, ∀ input, ws ≠ "" → slug ≠ "" →
      updateBody input ≠ [] →
      ∃ req, UpdatePullRequest ws slug id input = .ok req ∧
        req.path = updatePath ws slug id) ∧
    (∀ ws slug : String, ∀ id : Int, ∀ opts, ws ≠ "" → slug ≠ "" →
      trimSpace opts.Text ≠ "" →
      (opts.FilePath = "" ∨
        (0 < opts.Line ∧ (opts.LineFrom ≤ 0 ∨ opts.LineFrom ≤ opts.Line))) →
      ∃ req, CommentPullRequest ws slug id opts = .ok req ∧
        req.path = commentPath ws slug id) ∧
    (∀ ws slug : String, ∀ id : Int, ∀ e, GetPullRequest ws slug id = Except.error e →
      e = "workspace and repository slug are required") ∧
    (∀ ws slug : String, ∀ id : Int, ∀ input e,
      UpdatePullRequest ws slug id input = Except.error e →
      e = "workspace and repository slug are required" ∨
      e = "at least one field (title or description) must be provided") ∧
    (∀ ws slug : String, ∀ id : Int, ∀ opts e,
      CommentPullRequest ws slug id opts = Except.error e →
      e = "workspace and repository slug are required" ∨
      e = "comment text is required" ∨
      e = "line number must be positive when file path is specified" ∨
      ∃ a b : Int, e = "line range start (" ++ toString a ++
        ") must be less than or equal to end (" ++ toString b ++ ")") := by
  refine ⟨?_, ?_, ?_, ?_, ?_, ?_⟩
  · intro ws slug id hws hs
    unfold GetPullRequest
    rw [if_neg (not_or_of_ne hws hs)]
  · intro ws slug id input hws hs hbody
    have hlen : ¬(updateBody input).length = 0 :=
      fun hl => hbody (List.length_eq_zero.mp hl)
    have hcomp : UpdatePullRequest ws slug id input =
        .ok ⟨"PUT", updatePath ws slug id, some (Json.obj (updateBody input))⟩ := by
      simp only [UpdatePullRequest]
      rw [if_neg (not_or_of_ne hws hs), if_neg hlen]
    exact ⟨_, hcomp, rfl⟩
  · intro ws slug id opts hws hs htext hgeom
    have hne := not_or_of_ne hws hs
    by_cases hf : opts.FilePath = ""
    · have hcomp : CommentPullRequest ws slug id opts =
          .ok ⟨"POST", commentPath ws slug id,
            some (Json.obj [("content", Json.obj [("raw", Json.str opts.Text)])])⟩ := by
        simp [CommentPullRequest, hne, htext, hf]
      exact ⟨_, hcomp, rfl⟩
    · obtain ⟨hl, hlf⟩ := hgeom.resolve_left hf
      have hl2 : ¬opts.Line ≤ 0 := by omega
      by_cases hlf0 : (0 : Int) < opts.LineFrom
      · have hle : opts.LineFrom ≤ opts.Line := hlf.resolve_left (by omega)
        have hle2 : ¬opts.Line < opts.LineFrom := by omega
        have hcomp : CommentPullRequest ws slug id opts =
            .ok ⟨"POST", commentPath ws slug id,
              some (Json.obj [("content", Json.obj [("raw", Json.str opts.Text)]),
                ("inline", Json.obj [("path", Json.str opts.FilePath),
                  ("to", Json.num opts.Line), ("from", Json.num opts.LineFrom)])])⟩ := by
          simp [CommentPullRequest, hne, htext, hf, hl2, hlf0, hle2]
        exact ⟨_, hcomp, rfl⟩
      · have hcomp : CommentPullRequest ws slug id opts =
            .ok ⟨"POST", commentPath ws slug id,
              some (Json.obj [("content", Json.obj [("raw", Json.str opts.Text)]),
                ("inline", Json.obj [("path", Json.str opts.FilePath),
                  ("to", Json.num opts.Line)])])⟩ := by
          simp [CommentPullRequest, hne, htext, hf, hl2, hlf0]
        exact ⟨_, hcomp, rfl⟩
  · intro ws slug id e h
    unfold GetPullRequest at h
    split_ifs at h
    · simp only [Except.error.injEq] at h
      exact h.symm
  · intro ws slug id input e h
    simp only [UpdatePullRequest] at h
    split_ifs at h
    · simp only [Except.error.injEq] at h
      exact Or.inl h.symm
    · simp only [Except.error.injEq] at h
      exact Or.inr h.symm
  · intro ws slug id opts e h
    simp only [CommentPullRequest] at h
    split_ifs at h
    · simp only [Except.error.injEq] at h
      exact Or.inl h.symm
    · simp only [Except.error.injEq] at h
      exact Or.inr (Or.inl h.symm)
    · simp only [Except.error.injEq] at h
      exact Or.inr (Or.inr (Or.inl h.symm))
    · simp only [Except.error.injEq] at h
      exact Or.inr (Or.inr (Or.inr ⟨opts.LineFrom, opts.Line, h.symm⟩))

theorem pull_request_id_never_validated_witness :
    GetPullRequest "acme" "widgets" (-12) = .ok ⟨"GET",
      "/repositories/" ++ pathEscape "acme" ++ "/" ++ pathEscape "widgets" ++
        "/pullrequests/" ++ toString (-12 : Int), none⟩ :=
  pull_request_id_never_validated.1 "acme" "widgets" (-12) (by decide) (by decide)

lemma listWalk_chainClosed_of_nonpos (server : Nat → pullRequestListPage)
    (limit : Int) (hlim : limit ≤ 0) :
    ∀ c j acc fuel, c < fuel → (server (j + c)).Next = "" →
      (∀ i, i < c → (server (j + i)).Next ≠ "") →
      listWalk server limit fuel j acc =
        some (acc ++ chainValues server j c, j + c + 1) := by
  intro c
  induction c with
  | zero =>
    intro j acc fuel hfuel hnext _
    obtain ⟨f, rfl⟩ : ∃ f, fuel = f + 1 := ⟨fuel - 1, by omega⟩
    rw [Nat.add_zero] at hnext
    have hcond : ¬(0 < limit ∧ limit ≤ ((acc ++ (server j).Values).length : Int)) :=
      fun h => by omega
    simp only [listWalk]
    rw [if_neg hcond, if_pos hnext]
    simp [chainValues]
  | succ c ih =>
    intro j acc fuel hfuel hnext hprev
    obtain ⟨f, rfl⟩ : ∃ f, fuel = f + 1 := ⟨fuel - 1, by omega⟩
    have hcond : ¬(0 < limit ∧ limit ≤ ((acc ++ (server j).Values).length : Int)) :=
      fun h => by omega
    have hj : (server j).Next ≠ "" := by simpa using hprev 0 (by omega)
    simp only [listWalk]
    rw [if_neg hcond, if_neg hj]
    have hshift : j + 1 + c = j + (c + 1) := by omega
    have hrec := ih (j + 1) (acc ++ (server j).Values) f (by omega)
      (by rw [hshift]; exact hnext)
      (fun i hi => by
        have hs : j + 1 + i = j + (i + 1) := by omega
        rw [hs]; exact hprev (i + 1) (by omega))
    rw [hrec]
    simp only [chainValues, List.append_assoc, Option.some.injEq, Prod.mk.injEq]
    exact ⟨trivial, by omega⟩

lemma listWalk_chainClosed_of_pos (server : Nat → pullRequestListPage)
    (limit : Int) (hlim : 0 < limit) :
    ∀ c j acc fuel, c < fuel → (server (j + c)).Next = "" →
      (∀ i, i < c → (server (j + i)).Next ≠ "") →
      ((acc.length : Int) < limit) →
      ∃ reqs, listWalk server limit fuel j acc =
          some ((acc ++ chainValues server j c).take limit.toNat, reqs) ∧
        reqs ≤ j + c + 1 ∧
        ∀ m, m ≤ c → limit ≤ ((acc ++ chainValues server j m).length : Int) →
          reqs ≤ j + m + 1 := by
  intro c
  induction c with
  | zero =>
    intro j acc fuel hfuel hnext _ hacc
    obtain ⟨f, rfl⟩ : ∃ f, fuel = f + 1 := ⟨fuel - 1, by omega⟩
    rw [Nat.add_zero] at hnext
    by_cases hcond : limit ≤ ((acc ++ (server j).Values).length : Int)
    · refine ⟨j + 1, ?_, by omega, fun m _ _ => by omega⟩
      simp only [listWalk]
      rw [if_pos ⟨hlim, hcond⟩]
      simp [chainValues]
    · refine ⟨j + 1, ?_, by omega, ?_⟩
      · simp only [listWalk]
        rw [if_neg (fun h => hcond h.2), if_pos hnext]
        have hlen : (acc ++ (server j).Values).length ≤ limit.toNat := by
          have := List.length_append acc (server j).Values
          omega
        simp [chainValues, List.take_of_length_le hlen]
      · intro m hm hlen
        have hm0 : m = 0 := by omega
        subst hm0
        exact absurd (by simpa [chainValues] using hlen) hcond
  | succ c ih =>
    intro j acc fuel hfuel hnext hprev hacc
    obtain ⟨f, rfl⟩ : ∃ f, fuel = f + 1 := ⟨fuel - 1, by omega⟩
    have hassoc : ∀ d, acc ++ chainValues server j (d + 1) =
        (acc ++ (server j).Values) ++ chainValues server (j + 1) d := by
      intro d
      simp [chainValues, List.append_assoc]
    by_cases hcond : limit ≤ ((acc ++ (server j).Values).length : Int)
    · refine ⟨j + 1, ?_, by omega, fun m _ _ => by omega⟩
      simp only [listWalk]
      rw [if_pos ⟨hlim, hcond⟩]
      have hle : limit.toNat ≤ (acc ++ (server j).Values).length := by
        have := List.length_append acc (server j).Values
        omega
      rw [hassoc c, List.take_append_of_le_length hle]
    · have hj : (server j).Next ≠ "" := by simpa using hprev 0 (by omega)
      have hshift : j + 1 + c = j + (c + 1) := by omega
      obtain ⟨reqs, heq, hr1, hr2⟩ := ih (j + 1) (acc ++ (server j).Values) f
        (by omega)
        (by rw [hshift]; exact hnext)
        (fun i hi => by
          have hs : j + 1 + i = j + (i + 1) := by omega
          rw [hs]; exact hprev (i + 1) (by omega))
        (by push_neg at hcond; exact hcond)
      refine ⟨reqs, ?_, by omega, ?_⟩
      · simp only [listWalk]
        rw [if_neg (fun h => hcond h.2), if_neg hj, heq, hassoc c]
      · intro m hm hlen
        cases m with
        | zero =>
          exact absurd (by simpa [chainValues] using hlen) hcond
        | succ m =>
          have := hr2 m (by omega) (by rw [hassoc m] at hlen; exact hlen)
          omega

lemma listWalk_total_of_next (server : Nat → pullRequestListPage) (limit : Int) :
    ∀ c j acc fuel, c < fuel → (server (j + c)).Next = "" →
      ∃ r, listWalk server limit fuel j acc = some r := by
  intro c
  induction c with
  | zero =>
    intro j acc fuel hfuel hnext
    obtain ⟨f, rfl⟩ : ∃ f, fuel = f + 1 := ⟨fuel - 1, by omega⟩
    rw [Nat.add_zero] at hnext
    simp only [listWalk]
    by_cases hcond : 0 < limit ∧ limit ≤ ((acc ++ (server j).Values).length : Int)
    · rw [if_pos hcond]; exact ⟨_, rfl⟩
    · rw [if_neg hcond, if_pos hnext]; exact ⟨_, rfl⟩
  | succ c ih =>
    intro j acc fuel hfuel hnext
    obtain ⟨f, rfl⟩ : ∃ f, fuel = f + 1 := ⟨fuel - 1, by omega⟩
    simp only [listWalk]
    by_cases hcond : 0 < limit ∧ limit ≤ ((acc ++ (server j).Values).length : Int)
    · rw [if_pos hcond]; exact ⟨_, rfl⟩
    · rw [if_neg hcond]
      by_cases hj : (server j).Next = ""
      · rw [if_pos hj]; exact ⟨_, rfl⟩
      · rw [if_neg hj]
        exact ih (j + 1) (acc ++ (server j).Values) f (by omega)
          (by have hs : j + 1 + c = j + (c + 1) := by omega
              rw [hs]; exact hnext)

lemma listWalk_total_of_limit (server : Nat → pullRequestListPage) (limit : Int)
    (hlim : 0 < limit) :
    ∀ c j acc fuel, c < fuel →
      limit ≤ ((acc ++ chainValues server j c).length : Int) →
      ∃ r, listWalk server limit fuel j acc = some r := by
  intro c
  induction c with
  | zero =>
    intro j acc fuel hfuel hlen
    obtain ⟨f, rfl⟩ : ∃ f, fuel = f + 1 := ⟨fuel - 1, by omega⟩
    simp only [listWalk]
    rw [if_pos ⟨hlim, by simpa [chainValues] using hlen⟩]
    exact ⟨_, rfl⟩
  | succ c ih =>
    intro j acc fuel hfuel hlen
    obtain ⟨f, rfl⟩ : ∃ f, fuel = f + 1 := ⟨fuel - 1, by omega⟩
    simp only [listWalk]
    by_cases hcond : 0 < limit ∧ limit ≤ ((acc ++ (server j).Values).length : Int)
    · rw [if_pos hcond]; exact ⟨_, rfl⟩
    · rw [if_neg hcond]
      by_cases hj : (server j).Next = ""
      · rw [if_pos hj]; exact ⟨_, rfl⟩
      · rw [if_neg hj]
        refine ih (j + 1) (acc ++ (server j).Values) f (by omega) ?_
        have hassoc : acc ++ chainValues server j (c + 1) =
            (acc ++ (server j).Values) ++ chainValues server (j + 1) c := by
          simp [chainValues, List.append_assoc]
        rw [hassoc] at hlen
        exact hlen

lemma listPageLen_eq_spec (L : Int) :
    listPageLen L = if 0 < L ∧ L ≤ 100 then L else 20 := by
  unfold listPageLen
  split_ifs <;> omega

/-- Claim C2: with a positive limit `n`, `ListPullRequests` returns
exactly `min n T` items where `T` is the total the server's pages
supply, truncating the accumulator to its first `n` items, and the walk
issues no request beyond the page on which the accumulated count first
reaches `n`. -/
theorem listPullRequests_respects_limit (server : Nat → pullRequestListPage)
    (k fuel : Nat) (ws slug : String) (opts : PullRequestListOptions)
    (hws : ws ≠ "") (hs : slug ≠ "") (hlim : 0 < opts.Limit)
    (hclosed : chainClosed server k) (hfuel : k < fuel) :
    ∃ path reqs,
      ListPullRequests server fuel ws slug opts =
        .ok (path, some ((chainValues server 0 k).take opts.Limit.toNat, reqs)) ∧
      ((chainValues server 0 k).take opts.Limit.toNat).length =
        min opts.Limit.toNat (chainValues server 0 k).length ∧
      ∀ j, j ≤ k → opts.Limit ≤ ((chainValues server 0 j).length : Int) →
        reqs ≤ j + 1 := by
  obtain ⟨hk, hprev⟩ := hclosed
  obtain ⟨reqs, heq, _, hr2⟩ := listWalk_chainClosed_of_pos server opts.Limit hlim
    k 0 [] fuel hfuel (by simpa using hk) (fun i hi => by simpa using hprev i hi)
    (by simpa using hlim)
  rw [List.nil_append] at heq
  refine ⟨"/repositories/" ++ pathEscape ws ++ "/" ++ pathEscape slug ++
    "/pullrequests?" ++ String.intercalate "&" (listParams opts), reqs, ?_,
    List.length_take _ _, fun j hj hlen => ?_⟩
  · simp only [ListPullRequests]
    rw [if_neg (not_or_of_ne hws hs), heq]
  · simpa using hr2 j hj (by simpa using hlen)

/-- Claim C6: the `pagelen` query parameter is `opts.Limit` when that is
in (0,100] and 20 otherwise; and with `Limit = 0` no cap applies: the
walk follows `next` references until one is empty and returns the
concatenation of all pages' items in order. -/
theorem listPullRequests_pagelen_and_unbounded :
    (∀ opts, (listParams opts).head? = some ("pagelen=" ++
      toString (if 0 < opts.Limit ∧ opts.Limit ≤ 100 then opts.Limit else 20))) ∧
    (∀ server fuel k, ∀ ws slug : String, ∀ opts, ws ≠ "" → slug ≠ "" →
      opts.Limit = 0 → chainClosed server k → k < fuel →
      ∃ path, ListPullRequests server fuel ws slug opts =
        .ok (path, some (chainValues server 0 k, k + 1))) := by
  constructor
  · intro opts
    rw [← listPageLen_eq_spec]
    simp only [listParams]
    split_ifs <;> rfl
  · intro server fuel k ws slug opts hws hs hlim hclosed hfuel
    obtain ⟨hk, hprev⟩ := hclosed
    have hwalk := listWalk_chainClosed_of_nonpos server opts.Limit (by omega)
      k 0 [] fuel hfuel (by simpa using hk) (fun i hi => by simpa using hprev i hi)
    rw [List.nil_append, Nat.zero_add] at hwalk
    refine ⟨"/repositories/" ++ pathEscape ws ++ "/" ++ pathEscape slug ++
      "/pullrequests?" ++ String.intercalate "&" (listParams opts), ?_⟩
    simp only [ListPullRequests]
    rw [if_neg (not_or_of_ne hws hs), hwalk]

/-- Claim C7: the page walk of `ListPullRequests` terminates (with
enough fuel it returns `some`) whenever the server's `next` chain is
finite — some page carries an empty `next` — or a positive limit is
reached by the accumulated item count. -/
theorem listWalk_terminates (server : Nat → pullRequestListPage) (limit : Int)
    (k : Nat)
    (h : (server k).Next = "" ∨
      (0 < limit ∧ limit ≤ ((chainValues server 0 k).length : Int))) :
    ∃ r, listWalk server limit (k + 1) 0 [] = some r := by
  rcases h with hn | ⟨hlim, hlen⟩
  · exact listWalk_total_of_next server limit k 0 [] (k + 1) (by omega)
      (by simpa using hn)
  · exact listWalk_total_of_limit server limit hlim k 0 [] (k + 1) (by omega)
      (by simpa using hlen)

/-- A fixed pull-request value used to build concrete server pages. -/
def samplePullRequest (n : Int) : PullRequest :=
  { ID := n, Title := "", State := "", Author := ⟨"", ""⟩,
    Source := ⟨⟨""⟩, ⟨""⟩, ⟨""⟩⟩, Destination := ⟨⟨""⟩, ⟨""⟩⟩,
    Links := ⟨⟨""⟩⟩, Summary := ⟨""⟩ }

/-- A concrete two-page server: page 0 points at page 1, page 1 is the
last. -/
def sampleServer : Nat → pullRequestListPage
  | 0 => { Values := [samplePullRequest 1, samplePullRequest 2], Next := "/p2" }
  | _ => { Values := [samplePullRequest 3, samplePullRequest 4], Next := "" }

theorem listPullRequests_respects_limit_witness :
    ∃ path reqs,
      ListPullRequests sampleServer 5 "acme" "widgets"
          { State := "", Limit := 3, Mine := "" } =
        .ok (path, some ((chainValues sampleServer 0 1).take ((3 : Int)).toNat, reqs)) ∧
      ((chainValues sampleServer 0 1).take ((3 : Int)).toNat).length =
        min ((3 : Int)).toNat (chainValues sampleServer 0 1).length ∧
      ∀ j, j ≤ 1 → (3 : Int) ≤ ((chainValues sampleServer 0 j).length : Int) →
        reqs ≤ j + 1 :=
  listPullRequests_respects_limit sampleServer 1 5 "acme" "widgets"
    { State := "", Limit := 3, Mine := "" } (by decide) (by decide) (by decide)
    (by exact ⟨rfl, by decide⟩) (by decide)

theorem listPullRequests_pagelen_and_unbounded_witness :
    ∃ path, ListPullRequests sampleServer 5 "acme" "widgets"
        { State := "", Limit := 0, Mine := "" } =
      .ok (path, some (chainValues sampleServer 0 1, 2)) :=
  listPullRequests_pagelen_and_unbounded.2 sampleServer 5 1 "acme" "widgets"
    { State := "", Limit := 0, Mine := "" } (by decide) (by decide) rfl
    (by exact ⟨rfl, by decide⟩) (by decide)

theorem listWalk_terminates_witness :
    ∃ r, listWalk sampleServer 7 2 0 [] = some r :=
  listWalk_terminates sampleServer 7 1 (Or.inl rfl)
